import Mathlib

/-!
Shallow embedding of the expression-evaluation core of the sparql-engine
repository: the RDF Term/Literal data model (rdf-terms.ts, literals.ts),
the SPARQL operation and aggregation tables (sparql-operations.ts,
sparql-aggregates.ts), the expression compiler (sparql-expression.ts),
the Bindings abstraction (bindings.ts) and the GROUP BY pipeline stage
(sparql-groupby.ts), together with theorems settling the specification
claims about them.

Modelling conventions:
* JavaScript numbers are idealized as rationals; the claims under study
  only exercise exact (small-integer) arithmetic, where IEEE doubles and
  rationals agree.
* Thrown JavaScript exceptions are modelled with `Except`: the dedicated
  `LiteralOperationError` class, plain `Error` throws and host
  `TypeError`s are distinguished by constructor.  The interpolated
  operand serializations of the original messages are abbreviated.
* Object reference identity (the host `===` on terms) is modelled by an
  allocation-id tag carried next to the structural term value.
* SPARQL variables are interned (rdf-terms.ts, `Variable.allocate`), so a
  `Variable` object is in one-to-one correspondence with its name; maps
  keyed by `Variable` objects are modelled as association lists keyed by
  the name.  JavaScript `Map` iteration order is insertion order, which
  the association lists preserve.
-/

namespace SparqlEngine

/-- Modelled from the spec: the `rdf.XSD` helper of the `utils` module (not
among the provided sources) builds the standard XML Schema datatype IRI for
a local name, per the datatype names of section 4.1 (xsd:integer,
xsd:boolean, xsd:hexBinary, ...). -/
def xsd (local_ : String) : String :=
  "http://www.w3.org/2001/XMLSchema#" ++ local_

/-- Accumulate a decimal digit list into a natural number. -/
def digitsToNat (cs : List Char) : Nat :=
  cs.foldl (fun a c => 10 * a + (c.toNat - 48)) 0

/-- Parse a string of decimal digits; `none` when empty or non-digit. -/
def natDigits (s : String) : Option Nat :=
  let cs := s.toList
  if cs.length > 0 && cs.all Char.isDigit then some (digitsToNat cs) else none

/-- JavaScript `Number(string)` on the decimal forms the engine feeds it:
optional sign, integer digits, optional fraction.  The empty string is 0,
as in JavaScript.  Forms outside this fragment (exponents, hex, Infinity)
yield `none`, standing for NaN. -/
def jsNumberOpt (s : String) : Option ℚ :=
  let cs := s.toList
  if cs.isEmpty then some 0
  else
    let (sign, cs) : ℚ × List Char :=
      match cs with
      | '-' :: rest => (-1, rest)
      | '+' :: rest => (1, rest)
      | rest => (1, rest)
    let intPart := cs.takeWhile Char.isDigit
    let rest := cs.drop intPart.length
    match rest with
    | [] =>
      if intPart.isEmpty then none
      else some (sign * (digitsToNat intPart : ℚ))
    | '.' :: frac =>
      if frac.all Char.isDigit && (intPart.length + frac.length > 0) then
        some (sign * ((digitsToNat intPart : ℚ) +
          (digitsToNat frac : ℚ) / ((10 : ℚ) ^ frac.length)))
      else none
    | _ => none

/-- The numeric value a `NumericLiteral` constructor derives from its
lexical form (`Number(value)`).  A NaN result is idealized as 0; no claim
under study evaluates a NaN-valued literal. -/
def jsNumber (s : String) : ℚ :=
  (jsNumberOpt s).getD 0

/-- JavaScript number-to-string coercion, restricted to the integral case
(the only one reached by the claims); non-integral rationals fall back to
the `num/den` rendering, an idealization of IEEE float formatting. -/
def jsNumToString (q : ℚ) : String :=
  if q.den == 1 then toString q.num else toString q

/-- JavaScript `Number(boolean)` coercion. -/
def boolToNum (b : Bool) : ℚ := if b then 1 else 0

/-- Decode one hexadecimal digit. -/
def hexVal (c : Char) : Option Nat :=
  if '0' ≤ c && c ≤ '9' then some (c.toNat - 48)
  else if 'a' ≤ c && c ≤ 'f' then some (c.toNat - 87)
  else if 'A' ≤ c && c ≤ 'F' then some (c.toNat - 55)
  else none

/-- Modelled from the spec: `Buffer.from(value, "hex")` (Node host builtin,
external to the sources) decodes pairs of hex digits into bytes, stopping
at the first invalid pair. -/
def hexDecode : List Char → List Nat
  | c1 :: c2 :: rest =>
    match hexVal c1, hexVal c2 with
    | some a, some b => (16 * a + b) :: hexDecode rest
    | _, _ => []
  | _ => []

/-- Decode one base64 alphabet character. -/
def b64Val (c : Char) : Option Nat :=
  if 'A' ≤ c && c ≤ 'Z' then some (c.toNat - 65)
  else if 'a' ≤ c && c ≤ 'z' then some (c.toNat - 71)
  else if '0' ≤ c && c ≤ '9' then some (c.toNat + 4)
  else if c = '+' then some 62
  else if c = '/' then some 63
  else none

/-- Reassemble 6-bit groups into bytes. -/
def b64Bytes : List Nat → List Nat
  | a :: b :: c :: d :: rest =>
    (a * 4 + b / 16) :: ((b % 16) * 16 + c / 4) :: ((c % 4) * 64 + d) ::
      b64Bytes rest
  | [a, b] => [a * 4 + b / 16]
  | [a, b, c] => [a * 4 + b / 16, (b % 16) * 16 + c / 4]
  | _ => []

/-- Modelled from the spec: `Buffer.from(value, "base64")` (Node host
builtin, external to the sources); valid alphabet characters up to the
first padding or invalid character are decoded. -/
def base64Decode (cs : List Char) : List Nat :=
  b64Bytes ((cs.takeWhile (fun c => (b64Val c).isSome)).filterMap b64Val)

/-- Modelled from the spec: the moment-library timestamp parse
(`parseZone`, an external dependency).  A Date literal denotes a point in
time; the parsed instant is modelled as a rational obtained by an
injective linearization of the parsed `YYYY-MM-DD[THH:MM:SS[Z]]`
components (`none` for unparseable forms, moment's invalid date).  Only
instant equality of identically-parsed forms is relied upon by the
development. -/
def momentParseMs (s : String) : Option ℚ :=
  let dateOnlyMs : String → Option ℚ := fun d =>
    match d.splitOn "-" with
    | [y, mo, day] => do
      let yn ← natDigits y
      let mn ← natDigits mo
      let dn ← natDigits day
      pure ((((yn * 12 + mn) * 31 + dn) * 86400000 : ℕ) : ℚ)
    | _ => none
  let timeMs : String → Option ℚ := fun t =>
    let t := if t.endsWith "Z" then t.dropRight 1 else t
    match t.splitOn ":" with
    | [h, mi, se] => do
      let hn ← natDigits h
      let mn ← natDigits mi
      let sn ← natDigits se
      pure (((hn * 3600000 + mn * 60000 + sn * 1000 : ℕ) : ℚ))
    | _ => none
  match s.splitOn "T" with
  | [d] => dateOnlyMs d
  | [d, t] => do
    let dm ← dateOnlyMs d
    let tm ← timeMs t
    pure (dm + tm)
  | _ => none

/-- Source encoding of a `BufferLiteral` (literals.ts). -/
inductive BufFormat where
  | hex
  | base64
deriving DecidableEq, Repr

/-- The concrete RDF term variants of rdf-terms.ts and literals.ts: `IRI`,
`Variable`, and the five `Literal` subclasses.  Each literal keeps its
lexical `value` (the `ConcreteTerm` field) alongside the derived private
field its constructor computes (`_numericValue`, `_booleanValue`,
`_dateValue`, `_bufferValue`); arithmetic results mutate the derived field
only, exactly as in the source. -/
inductive Term where
  | iri (value : String)
  | varT (name : String)
  | numericLit (value : String) (datatype : Option String) (numericValue : ℚ)
  | stringLit (value : String) (datatype : Option String) (lang : Option String)
  | booleanLit (value : String) (booleanValue : Bool)
  | dateLit (value : String) (datatype : Option String) (dateValue : Option ℚ)
  | bufferLit (value : String) (format : BufFormat) (datatype : Option String)
      (bufferValue : List Nat)
deriving DecidableEq, Repr

namespace Term

/-- The `NumericLiteral` constructor: derives `_numericValue = Number(value)`. -/
def mkNumeric (value : String) (datatype : Option String) : Term :=
  .numericLit value datatype (jsNumber value)

/-- `NumericLiteral.fromInteger`: serializes the number and tags it
`xsd:integer` (the source also routes non-integral aggregate results
through this factory). -/
def fromInteger (q : ℚ) : Term :=
  .numericLit (jsNumToString q) (some (xsd "integer")) q

/-- `NumericLiteral.fromFloat`. -/
def fromFloat (q : ℚ) : Term :=
  .numericLit (jsNumToString q) (some (xsd "float")) q

/-- The `BooleanLiteral` constructor: `_booleanValue` is true exactly for
the lexical forms `true` and `1`; the datatype is forced to `xsd:boolean`. -/
def mkBoolean (value : String) : Term :=
  .booleanLit value (value == "true" || value == "1")

/-- `BooleanLiteral.fromBoolean`. -/
def fromBoolean (b : Bool) : Term :=
  mkBoolean (if b then "true" else "false")

/-- The `DateLiteral` constructor: `_dateValue = parseZone(value)`. -/
def mkDate (value : String) (datatype : Option String) : Term :=
  .dateLit value datatype (momentParseMs value)

/-- The `BufferLiteral` constructor: `_bufferValue = Buffer.from(value, format)`. -/
def mkBuffer (value : String) (format : BufFormat) (datatype : Option String) : Term :=
  .bufferLit value format datatype
    (match format with
     | .hex => hexDecode value.toList
     | .base64 => base64Decode value.toList)

/-- `ConcreteTerm.getValue`. -/
def getValue : Term → String
  | .iri v => v
  | .varT n => n
  | .numericLit v _ _ => v
  | .stringLit v _ _ => v
  | .booleanLit v _ => v
  | .dateLit v _ _ => v
  | .bufferLit v _ _ _ => v

/-- The `isLiteral` capability: true on the five `Literal` subclasses. -/
def isLiteralT : Term → Bool
  | .numericLit .. => true
  | .stringLit .. => true
  | .booleanLit .. => true
  | .dateLit .. => true
  | .bufferLit .. => true
  | _ => false

/-- Recognize the `DateLiteral` subclass. -/
def isDateLit : Term → Bool
  | .dateLit .. => true
  | _ => false

/-- Recognize the `NumericLiteral` subclass. -/
def isNumericLit : Term → Bool
  | .numericLit .. => true
  | _ => false

/-- Recognize the `BooleanLiteral` subclass. -/
def isBooleanLit : Term → Bool
  | .booleanLit .. => true
  | _ => false

/-- The shared `Literal.toRDF` body: quote the lexical value, then append
the language tag when present, else the datatype when present. -/
def litSerialize (v : String) (dt : Option String) (lang : Option String) : String :=
  match lang with
  | some l => "\"" ++ v ++ "\"@" ++ l
  | none =>
    match dt with
    | some d => "\"" ++ v ++ "\"^^<" ++ d ++ ">"
    | none => "\"" ++ v ++ "\""

/-- `toRDF` over all term variants (rdf-terms.ts).  Only the `StringLiteral`
subclass carries a language tag; `BooleanLiteral` always carries the forced
`xsd:boolean` datatype. -/
def toRDF : Term → String
  | .iri v => "<" ++ v ++ ">"
  | .varT n => "?" ++ n
  | .numericLit v dt _ => litSerialize v dt none
  | .stringLit v dt lang => litSerialize v dt lang
  | .booleanLit v _ => litSerialize v (some (xsd "boolean")) none
  | .dateLit v dt _ => litSerialize v dt none
  | .bufferLit v _ dt _ => litSerialize v dt none

/-- Moment `isSame` against a raw string operand, as `DateLiteral.equals`
invokes it: the operand string is parsed and the instants compared; an
invalid date on either side compares unequal. -/
def momentIsSame (d : Option ℚ) (w : String) : Bool :=
  match d, momentParseMs w with
  | some x, some y => x == y
  | _, _ => false

/-- Term equality, dispatching exactly as the per-class `equals` methods
do.  Note the source `DateLiteral.equals` tests its operand with
`instanceof StringLiteral`, so a Date never compares equal to another
Date. -/
def termEquals : Term → Term → Bool
  | .iri v, .iri w => v == w
  | .varT v, .varT w => v == w
  | .numericLit _ _ n, .numericLit _ _ m => n == m
  | .stringLit v _ _, .stringLit w _ _ => v == w
  | .booleanLit _ b, .booleanLit _ c => b == c
  | .dateLit _ _ d, .stringLit w _ _ => momentIsSame d w
  | .bufferLit _ _ _ b, .bufferLit _ _ _ c => b == c
  | _, _ => false

end Term

end SparqlEngine

namespace SparqlEngine

/-- Errors thrown during evaluation, by host class: the dedicated
`LiteralOperationError` of literals.ts, plain `Error` throws of
sparql-operations.ts, host `TypeError`s (a missing method or property on
the receiver), and a marker for table entries whose runtime semantics the
development does not exercise. -/
inductive EvalErr where
  | literalOperationError (msg : String)
  | evalError (msg : String)
  | typeError (msg : String)
  | notModelled (msg : String)
deriving DecidableEq, Repr

/-- Decidable equality for `Except` results, so that concrete evaluations
of the embedded operations can be settled by `decide`. -/
instance {e a : Type} [DecidableEq e] [DecidableEq a] : DecidableEq (Except e a) := fun x y =>
  match x, y with
  | .ok u, .ok v => decidable_of_iff (u = v) (by simp)
  | .error u, .error v => decidable_of_iff (u = v) (by simp)
  | .ok _, .error _ => isFalse (by simp)
  | .error _, .ok _ => isFalse (by simp)

/-- The numeric datatype IRIs dispatched to `NumericLiteral` by
`parseLiteral` (literals.ts lines 47-63). -/
def numericDatatypes : List String :=
  [xsd "integer", xsd "byte", xsd "short", xsd "int", xsd "unsignedByte",
   xsd "unsignedShort", xsd "unsignedInt", xsd "number", xsd "float",
   xsd "decimal", xsd "double", xsd "long", xsd "unsignedLong",
   xsd "positiveInteger", xsd "nonPositiveInteger", xsd "negativeInteger",
   xsd "nonNegativeInteger"]

/-- The date/time datatype IRIs dispatched to `DateLiteral` by
`parseLiteral` (literals.ts lines 67-71). -/
def dateDatatypes : List String :=
  [xsd "dateTime", xsd "dateTimeStamp", xsd "date", xsd "time", xsd "duration"]

/-- `parseLiteral` (literals.ts): dispatch a lexical form, optional
datatype and optional language tag to the literal subclass constructor
selected by the datatype; anything unrecognized becomes a `StringLiteral`
that preserves datatype and language verbatim. -/
def parseLiteral (value : String) (datatype : Option String) (lang : Option String) : Term :=
  match datatype with
  | some d =>
    if d ∈ numericDatatypes then Term.mkNumeric value (some d)
    else if d == xsd "boolean" then Term.mkBoolean value
    else if d ∈ dateDatatypes then Term.mkDate value (some d)
    else if d == xsd "hexBinary" then Term.mkBuffer value .hex (some d)
    else if d == xsd "base64Binary" then Term.mkBuffer value .base64 (some d)
    else .stringLit value (some d) lang
  | none => .stringLit value none lang

/-- `Literal.add` dispatched over the subclasses (literals.ts).  The
receiver builds a fresh literal from a placeholder lexical form and
overwrites only the derived value field, exactly as the source does.
`BufferLiteral` implements none of the four arithmetic methods, so
invoking one on it is a host `TypeError`. -/
def litAdd : Term → Term → Except EvalErr Term
  | .numericLit _ dt n, .numericLit _ _ m => .ok (.numericLit "0" dt (n + m))
  | .numericLit _ dt n, .booleanLit _ b => .ok (.numericLit "0" dt (n + boolToNum b))
  | .numericLit _ _ _, _ =>
    .error (.literalOperationError "Cannot add a numeric literal with someting that is not a number or a boolean.")
  | .stringLit v dt lang, .stringLit w _ _ => .ok (.stringLit (v ++ w) dt lang)
  | .stringLit _ _ _, _ =>
    .error (.literalOperationError "Cannot concatenate a string literal with someting that is not a string.")
  | .booleanLit _ b, .booleanLit _ c => .ok (.booleanLit "0" (b && c))
  | .booleanLit _ b, .numericLit _ _ m => .ok (.booleanLit "0" (boolToNum b + m == 1))
  | .booleanLit _ _, _ =>
    .error (.literalOperationError "Cannot add a boolean literal with someting that is not a boolean or a number.")
  | .dateLit v dt d, .dateLit _ _ e =>
    .ok (.dateLit v dt (do pure ((← d) + (← e))))
  | .dateLit v dt d, .numericLit _ _ m =>
    .ok (.dateLit v dt (do pure ((← d) + m)))
  | .dateLit v dt d, .booleanLit _ b =>
    .ok (.dateLit v dt (do pure ((← d) + 1000 * boolToNum b)))
  | .dateLit _ _ _, _ =>
    .error (.literalOperationError "Cannot add a date literal with someting that is not a date, number or boolean.")
  | .bufferLit _ _ _ _, _ => .error (.typeError "add is not a function")
  | _, _ => .error (.typeError "add is not a function")

/-- `Literal.minus` dispatched over the subclasses (literals.ts). -/
def litMinus : Term → Term → Except EvalErr Term
  | .numericLit _ dt n, .numericLit _ _ m => .ok (.numericLit "0" dt (n - m))
  | .numericLit _ dt n, .booleanLit _ b => .ok (.numericLit "0" dt (n - boolToNum b))
  | .numericLit _ _ _, _ =>
    .error (.literalOperationError "Cannot substract a numeric literal with someting that is not a number or a boolean.")
  | .stringLit _ _ _, _ =>
    .error (.literalOperationError "Cannot perform a substration between two strings.")
  | .booleanLit _ b, .booleanLit _ c => .ok (.booleanLit "0" (b || c))
  | .booleanLit _ b, .numericLit _ _ m => .ok (.booleanLit "0" (boolToNum b - m == 1))
  | .booleanLit _ _, _ =>
    .error (.literalOperationError "Cannot substraction a boolean literal with someting that is not a boolean or a number.")
  | .dateLit v dt d, .dateLit _ _ e =>
    .ok (.dateLit v dt (do pure ((← d) - (← e))))
  | .dateLit v dt d, .numericLit _ _ m =>
    .ok (.dateLit v dt (do pure ((← d) - m)))
  | .dateLit v dt d, .booleanLit _ b =>
    .ok (.dateLit v dt (do pure ((← d) - 1000 * boolToNum b)))
  | .dateLit _ _ _, _ =>
    .error (.literalOperationError "Cannot substraction a date literal with someting that is not a date, number or boolean.")
  | .bufferLit _ _ _ _, _ => .error (.typeError "minus is not a function")
  | _, _ => .error (.typeError "minus is not a function")

/-- `Literal.multiply` dispatched over the subclasses (literals.ts).  Note
`BooleanLiteral.multiply` accepts only a `NumericLiteral` operand; a
Boolean operand falls through to the `LiteralOperationError` throw. -/
def litMultiply : Term → Term → Except EvalErr Term
  | .numericLit _ dt n, .numericLit _ _ m => .ok (.numericLit "0" dt (n * m))
  | .numericLit _ dt n, .booleanLit _ b => .ok (.numericLit "0" dt (n * boolToNum b))
  | .numericLit _ _ _, _ =>
    .error (.literalOperationError "Cannot multiply a numeric literal with someting that is not a number or a boolean.")
  | .stringLit _ _ _, _ =>
    .error (.literalOperationError "Cannot perform a multiplication between two strings.")
  | .booleanLit _ b, .numericLit _ _ m => .ok (.booleanLit "0" (boolToNum b * m == 1))
  | .booleanLit _ _, _ =>
    .error (.literalOperationError "Cannot multiply a boolean literal with someting that is not a number.")
  | .dateLit v dt d, .dateLit _ _ e =>
    .ok (.dateLit v dt (do pure ((← d) * (← e))))
  | .dateLit v dt d, .numericLit _ _ m =>
    .ok (.dateLit v dt (do pure ((← d) * m)))
  | .dateLit v dt d, .booleanLit _ b =>
    .ok (.dateLit v dt (do pure ((← d) * boolToNum b)))
  | .dateLit _ _ _, _ =>
    .error (.literalOperationError "Cannot multiply a date literal with someting that is not a date, number or boolean.")
  | .bufferLit _ _ _ _, _ => .error (.typeError "multiply is not a function")
  | _, _ => .error (.typeError "multiply is not a function")

/-- `Literal.div` dispatched over the subclasses (literals.ts).  Division
by a zero rational yields 0 where JavaScript yields Infinity or NaN; both
fail the equals-one test in `BooleanLiteral.div`, the only division the
claims evaluate symbolically. -/
def litDiv : Term → Term → Except EvalErr Term
  | .numericLit _ dt n, .numericLit _ _ m => .ok (.numericLit "0" dt (n / m))
  | .numericLit _ dt n, .booleanLit _ b => .ok (.numericLit "0" dt (n / boolToNum b))
  | .numericLit _ _ _, _ =>
    .error (.literalOperationError "Cannot divide a numeric literal with someting that is not a number or a boolean.")
  | .stringLit _ _ _, _ =>
    .error (.literalOperationError "Cannot perform a division between two strings.")
  | .booleanLit _ b, .numericLit _ _ m => .ok (.booleanLit "0" (boolToNum b / m == 1))
  | .booleanLit _ _, _ =>
    .error (.literalOperationError "Cannot divide a boolean literal with someting that is not a number.")
  | .dateLit v dt d, .dateLit _ _ e =>
    .ok (.dateLit v dt (do pure ((← d) / (← e))))
  | .dateLit v dt d, .numericLit _ _ m =>
    .ok (.dateLit v dt (do pure ((← d) / m)))
  | .dateLit v dt d, .booleanLit _ b =>
    .ok (.dateLit v dt (do pure ((← d) / boolToNum b)))
  | .dateLit _ _ _, _ =>
    .error (.literalOperationError "Cannot divide a date literal with someting that is not a date, number or boolean.")
  | .bufferLit _ _ _ _, _ => .error (.typeError "div is not a function")
  | _, _ => .error (.typeError "div is not a function")

end SparqlEngine

namespace SparqlEngine

/-- A heap reference to a Term: the allocation id models host object
identity (`===`), the `term` component the object state read through its
methods.  Distinct ids stand for distinct objects. -/
structure TermRef where
  id : Nat
  term : Term
deriving DecidableEq, Repr

/-- Host `===` between two term objects. -/
def jsSame (x y : TermRef) : Bool := x.id == y.id

/-- First-match association-list lookup, the JavaScript `Map.get`. -/
def lookupA {α : Type} : List (String × α) → String → Option α
  | [], _ => none
  | (k, v) :: rest, key => if k == key then some v else lookupA rest key

/-- JavaScript `Map.set`: replace the value of an existing key in place,
otherwise append, preserving insertion order. -/
def setA {α : Type} : List (String × α) → String → α → List (String × α)
  | [], key, v => [(key, v)]
  | (k, w) :: rest, key, v =>
    if k == key then (k, v) :: rest else (k, w) :: setA rest key v

/-- The aggregation group of sparql-groupby.ts: `Map<Variable, Term[]>`,
a per-variable ordered list of collected values, keyed here by the
(interned) variable name. -/
abbrev Group := List (String × List TermRef)

/-- A `BindingBase`: the variable-to-term content `Map` plus the metadata
side-channel `Map` of the abstract `Bindings` class.  Only the GROUP BY
payload is ever stored in the side-channel within this fragment, so the
property values are `Group`s. -/
structure Bindings where
  content : List (String × TermRef)
  props : List (String × Group)
deriving DecidableEq, Repr

namespace Bindings

/-- An empty set of mappings (`BindingBase.empty`): no content, no
properties. -/
def empty : Bindings := ⟨[], []⟩

/-- `BindingBase.get`. -/
def get (b : Bindings) (v : String) : Option TermRef := lookupA b.content v

/-- `BindingBase.has`. -/
def has (b : Bindings) (v : String) : Bool := (b.get v).isSome

/-- `BindingBase.set`. -/
def set (b : Bindings) (v : String) (r : TermRef) : Bindings :=
  { b with content := setA b.content v r }

/-- `Bindings.size` (content map size). -/
def size (b : Bindings) : Nat := b.content.length

/-- `BindingBase.variables`: the content keys in insertion order. -/
def variablesB (b : Bindings) : List String := b.content.map Prod.fst

/-- `Bindings.getProperty`. -/
def getProperty (b : Bindings) (key : String) : Option Group := lookupA b.props key

/-- `Bindings.hasProperty`. -/
def hasProperty (b : Bindings) (key : String) : Bool := (b.getProperty key).isSome

/-- `Bindings.setProperty`. -/
def setProperty (b : Bindings) (key : String) (g : Group) : Bindings :=
  { b with props := setA b.props key g }

/-- `BindingBase.forEach` iterates the content map in insertion order.
The source wraps each key in `Variable.allocate(variable)`; under the
interning invariant the key is already the canonical `Variable` object,
so the wrap is the identity (as literally written it passes a `Variable`
where `allocate` declares a `string`, which does not typecheck), and the
iteration is modelled as the plain entry list. -/
def entries (b : Bindings) : List (String × TermRef) := b.content

/-- `Bindings.clone`: a fresh bindings carrying the same properties (in
insertion order) and the same content (in insertion order). -/
def clone (b : Bindings) : Bindings := ⟨b.content, b.props⟩

/-- `Bindings.map`: fold the entries through the mapper into a fresh empty
bindings (properties dropped), keeping a pair only when the mapper returns
both a variable and a value. -/
def mapB (b : Bindings) (mapper : String → TermRef → Option String × Option TermRef) : Bindings :=
  b.entries.foldl
    (fun acc p =>
      match mapper p.1 p.2 with
      | (some v, some r) => acc.set v r
      | _ => acc)
    empty

/-- `Bindings.filter`, implemented through `map` as in the source. -/
def filter (b : Bindings) (pred : String → TermRef → Bool) : Bindings :=
  b.mapB (fun v r => if pred v r then (some v, some r) else (none, none))

/-- `Bindings.equals`: sizes must agree, then every mapping of `other`
must exist in `this` with a `Term.equals`-equal value (short-circuiting
on a missing variable exactly as the source conjunction does). -/
def equals (b other : Bindings) : Bool :=
  if b.size != other.size then false
  else
    other.entries.foldl
      (fun res p =>
        res &&
          match b.get p.1, other.get p.1 with
          | some r1, some r2 => Term.termEquals r1.term r2.term
          | _, _ => false)
      true

/-- `Bindings.intersection`: keep a mapping only when the other set holds
the reference-identical (`===`) term object for the variable. -/
def intersection (b other : Bindings) : Bindings :=
  b.entries.foldl
    (fun res p =>
      match other.get p.1 with
      | some r2 => if jsSame r2 p.2 then res.set p.1 p.2 else res
      | none => res)
    empty

/-- `Bindings.difference`: keep the mappings absent from the other set or
bound there to a non-`Term.equals` value. -/
def difference (b other : Bindings) : Bindings :=
  b.filter (fun v r =>
    match other.get v with
    | none => true
    | some r2 => !(Term.termEquals r.term r2.term))

/-- `Bindings.isSubset`: every mapping must exist in the other set with a
`Term.equals`-equal value. -/
def isSubset (b other : Bindings) : Bool :=
  b.entries.foldl
    (fun res p =>
      res &&
        match other.get p.1 with
        | some r2 => Term.termEquals r2.term p.2.term
        | none => false)
    true

end Bindings

/-- A value crossing a compiled-expression boundary: a Term, a Term array
(IN / NOT IN right-hand sides), the `null` of an unbound variable or a
swallowed error, or the bindings object itself (the aggregate-node
fallback). -/
inductive Value where
  | term (t : Term)
  | termList (ts : List Term)
  | null
  | bindingsVal (b : Bindings)
deriving DecidableEq, Repr

/-- A compiled SPARQL expression: `Bindings -> Term | Term[] | null`,
with thrown errors made explicit. -/
abbrev CompiledExpression := Bindings → Except EvalErr Value

end SparqlEngine

namespace SparqlEngine

/-- The key set of the `SPARQL_OPERATIONS` table (sparql-operations.ts),
used by the compiler for the compile-time membership check. -/
def SPARQL_OPERATIONS_KEYS : List String :=
  ["+", "-", "*", "/", "=", "!=", "<", "<=", ">", ">=", "!", "&&", "||",
   "bound", "sameterm", "in", "notin", "isiri", "isblank", "isliteral",
   "isnumeric", "str", "lang", "datatype", "iri", "strdt", "strlang",
   "uuid", "struuid", "strlen", "substr", "ucase", "lcase", "strstarts",
   "strends", "contains", "strbefore", "strafter", "encode_for_uri",
   "concat", "langmatches", "regex", "abs", "round", "ceil", "floor",
   "now", "year", "month", "day", "hours", "minutes", "seconds", "tz",
   "md5", "sha1", "sha256", "sha384", "sha512"]

/-- The key set of the `SPARQL_AGGREGATES` table (sparql-aggregates.ts). -/
def SPARQL_AGGREGATES_KEYS : List String :=
  ["count", "sum", "avg", "min", "max", "group_concat", "sample"]

/-- The host primitive a term coerces to through `toJS`. -/
inductive JSPrim where
  | str (s : String)
  | num (q : ℚ)
  | boolean (b : Bool)
  | dateObj (d : Option ℚ)
  | bytes (l : List Nat)

/-- `toJS` over the term variants: IRIs and variables yield their value
string, literals their derived value field. -/
def termToJS : Term → JSPrim
  | .iri v => .str v
  | .varT n => .str n
  | .numericLit _ _ n => .num n
  | .stringLit v _ _ => .str v
  | .booleanLit _ b => .boolean b
  | .dateLit _ _ d => .dateObj d
  | .bufferLit _ _ _ l => .bytes l

/-- JavaScript string coercion of a host primitive (only the string and
number cases are reachable through the non-literal arithmetic fallbacks;
the rest are idealized placeholders). -/
def jsToString : JSPrim → String
  | .str s => s
  | .num q => jsNumToString q
  | .boolean b => if b then "true" else "false"
  | .dateObj _ => "[moment]"
  | .bytes _ => "[buffer]"

/-- JavaScript `ToNumber` on a host primitive; `none` is NaN. -/
def jsToNumber : JSPrim → Option ℚ
  | .num q => some q
  | .str s => jsNumberOpt s
  | .boolean b => some (boolToNum b)
  | _ => none

/-- The `+` host fallback `a.toJS() + b.toJS()`: string concatenation when
either side is a string, else numeric addition. -/
def jsPlusString (x y : JSPrim) : String :=
  match x, y with
  | .str _, _ => jsToString x ++ jsToString y
  | _, .str _ => jsToString x ++ jsToString y
  | _, _ =>
    match jsToNumber x, jsToNumber y with
    | some a, some b => jsNumToString (a + b)
    | _, _ => "NaN"

/-- A numeric host fallback such as `a.toJS() - b.toJS()`: coerce both
sides to numbers and combine; NaN on either side is contagious. -/
def jsArithString (f : ℚ → ℚ → ℚ) (x y : JSPrim) : String :=
  match jsToNumber x, jsToNumber y with
  | some a, some b => jsNumToString (f a b)
  | _, _ => "NaN"

/-- JavaScript `ToIntegerOrInfinity` on a finite number: truncation toward
zero. -/
def jsTrunc (q : ℚ) : Int := q.num.tdiv (q.den : Int)

/-- JavaScript `String.prototype.substring` with two indices: truncate,
clamp both to the string bounds and swap when reversed. -/
def jsSubstring2 (s : String) (a b : ℚ) : String :=
  let n := s.length
  let clamp : Int → Nat := fun i => (max 0 (min i (n : Int))).toNat
  let i := clamp (jsTrunc a)
  let j := clamp (jsTrunc b)
  let lo := min i j
  let hi := max i j
  ((s.toList.drop lo).take (hi - lo)).asString

/-- JavaScript `String.prototype.substring` with one index: slice to the
end of the string. -/
def jsSubstring1 (s : String) (a : ℚ) : String :=
  jsSubstring2 s a (s.length : ℚ)

/-- JavaScript `String.prototype.substr(start, length)` for non-negative
arguments, as `langmatches` uses it. -/
def jsSubstrN (s : String) (start len : Nat) : String :=
  ((s.toList.drop start).take len).asString

/-- Lowercase one ASCII letter, the fragment of the host `toLowerCase`
exercised by language tags. -/
def jsCharLower (c : Char) : Char :=
  if 'A' ≤ c && c ≤ 'Z' then Char.ofNat (c.toNat + 32) else c

/-- JavaScript `String.prototype.toLowerCase`, restricted to ASCII. -/
def jsToLowerCase (s : String) : String :=
  (s.toList.map jsCharLower).asString

/-- The static `SUBSTR` error message of sparql-operations.ts. -/
def substrErrMsg : String :=
  "SUBSTR error: the index of the first character in a string is 1 (according to the SPARQL W3C specs)"

/-- Evaluate a binary arithmetic entry of the operation table: both
operands literal dispatches through the literal method, anything else
falls back to a host-coerced `StringLiteral` (sparql-operations.ts lines
61-87); a `null` or array operand crashes on the `isLiteral` member
access. -/
def arithEntry (litOp : Term → Term → Except EvalErr Term)
    (fallback : JSPrim → JSPrim → String) : List Value → Except EvalErr Value
  | .term a :: .term b :: _ =>
    if a.isLiteralT && b.isLiteralT then (litOp a b).map .term
    else .ok (.term (.stringLit (fallback (termToJS a) (termToJS b)) none none))
  | _ => .error (.typeError "isLiteral is not a function")

/-- The `SPARQL_OPERATIONS` entries exercised by the claims, applied to
already-evaluated argument values; extra arguments are ignored exactly as
JavaScript ignores them.  Note the source text of the `/` entry: it
guards on two literals and then calls `multiply`, not `div`
(sparql-operations.ts line 84).  Entries outside the exercised subset are
present in the key list above but carry no modelled runtime semantics. -/
def applyOperation : String → List Value → Except EvalErr Value
  | "+", args => arithEntry litAdd jsPlusString args
  | "-", args => arithEntry litMinus (jsArithString (· - ·)) args
  | "*", args => arithEntry litMultiply (jsArithString (· * ·)) args
  | "/", args => arithEntry litMultiply (jsArithString (· / ·)) args
  | "langmatches", .term langTag :: .term langRange :: _ =>
    let tag := jsToLowerCase langTag.getValue
    let range := jsToLowerCase langRange.getValue
    let test := tag == range || range == "*" ||
      jsSubstrN tag 1 (range.length + 1) == range ++ "-"
    .ok (.term (Term.fromBoolean test))
  | "langmatches", _ => .error (.typeError "getValue is not a function")
  | "substr", .term str :: .term index :: rest =>
    match str, index with
    | .stringLit v dt lg, .numericLit _ _ idx =>
      if idx < 1 then .error (.evalError substrErrMsg)
      else
        let value := jsSubstring1 v (idx - 1)
        let value :=
          match rest with
          | .term (.numericLit _ _ len) :: _ => jsSubstring2 value 0 len
          | _ => value
        .ok (.term (.stringLit value dt lg))
    | _, _ => .ok (.term str)
  | "substr", [v] => .ok v
  | "substr", [] => .ok .null
  | name, _ => .error (.notModelled name)

/-- The dynamic value the compiler hands an aggregation function as its
first argument: the source call site passes `aggExpression.expression` (a
lexical string such as `?v`) where the table functions declare the
collected `Term[]` rows parameter, so both host shapes can arrive. -/
inductive JSArg where
  | jsString (s : String)
  | jsTerms (ts : List TermRef)

/-- `count` (sparql-aggregates.ts): the `length` of whatever arrives as
`rows` — the element count of an array, the character count of a string. -/
def aggCount (rows : JSArg) : Term :=
  Term.fromInteger
    (match rows with
     | .jsString s => (s.length : ℚ)
     | .jsTerms ts => (ts.length : ℚ))

/-- `sum` (sparql-aggregates.ts): filter the rows to `NumericLiteral`s and
reduce by numeric addition from 0.  A string `rows` has no `filter`
method: host `TypeError`. -/
def aggSum (rows : JSArg) : Except EvalErr Term :=
  match rows with
  | .jsString _ => .error (.typeError "rows.filter is not a function")
  | .jsTerms ts =>
    .ok (Term.fromInteger
      ((ts.filter (fun r => r.term.isNumericLit)).foldl
        (fun acc r =>
          match r.term with
          | .numericLit _ _ n => acc + n
          | _ => acc)
        0))

/-- `avg` (sparql-aggregates.ts): sum and count the numeric rows, then
divide (a 0/0 for an all-non-numeric group is NaN in the host, idealized
here as the rational 0).  A string `rows` has no `filter` method: host
`TypeError`. -/
def aggAvg (rows : JSArg) : Except EvalErr Term :=
  match rows with
  | .jsString _ => .error (.typeError "rows.filter is not a function")
  | .jsTerms ts =>
    let nums := ts.filter (fun r => r.term.isNumericLit)
    let s := nums.foldl
      (fun acc r =>
        match r.term with
        | .numericLit _ _ n => acc + n
        | _ => acc)
      0
    .ok (Term.fromFloat (s / (nums.length : ℚ)))

/-- Apply a `SPARQL_AGGREGATES` entry the way the compiled aggregate
closure calls it: `aggregation(aggExpression.expression, group,
separator)` (sparql-expression.ts line 118).  The unary table functions
bind only the first argument, so the group payload and separator are
ignored by the modelled entries exactly as JavaScript ignores extra
arguments. -/
def applyAggregation (name : String) (firstArg : JSArg) (_group : Group)
    (_sep : Option String) : Except EvalErr Value :=
  match name with
  | "count" => .ok (.term (aggCount firstArg))
  | "sum" => (aggSum firstArg).map .term
  | "avg" => (aggAvg firstArg).map .term
  | other => .error (.notModelled other)

end SparqlEngine

namespace SparqlEngine

/-- `_hashBindings` (sparql-groupby.ts): the grouping key is the
semicolon-join of the RDF serializations of the grouping variables'
values (`null` for a missing variable), or the fixed sentinel when the
grouping-variable list is empty. -/
def hashBindings (groupVars : List String) (b : Bindings) : String :=
  if groupVars.isEmpty then "http://callidon.github.io/sparql-engine#DefaultGroupKey"
  else
    String.intercalate ";"
      (groupVars.map (fun v =>
        match b.get v with
        | some r => r.term.toRDF
        | none => "null"))

/-- `buildNewGroup` (sparql-groupby.ts): one empty value list per
variable. -/
def buildNewGroup (groupVars : List String) : Group :=
  groupVars.map (fun v => (v, []))

/-- Push a value onto the list a group holds for a variable
(`groups.get(key)!.get(variable)!.push(value)`); a variable absent from
the group map is an access on `undefined`, a host `TypeError`. -/
def groupPush (g : Group) (v : String) (r : TermRef) : Option Group :=
  match lookupA g v with
  | some rs => some (setA g v (rs ++ [r]))
  | none => none

/-- Accumulation state of the GROUP BY stage: the `groups` and `keys`
maps, in insertion order. -/
structure GroupState where
  groups : List (String × Group)
  keys : List (String × Bindings)

/-- Phase 1 of `sparqlGroupBy` for one input binding: compute the key,
create the group and its representative binding (restricted to the
grouping variables) on first sight, then append every bound value to the
corresponding per-variable list. -/
def groupByStep (groupVars : List String) (st : GroupState) (b : Bindings) :
    Except EvalErr GroupState := do
  let key := hashBindings groupVars b
  let st :=
    if (lookupA st.groups key).isSome then st
    else
      { groups := st.groups ++ [(key, buildNewGroup b.variablesB)],
        keys := st.keys ++ [(key, b.filter (fun v _ => groupVars.contains v))] }
  match lookupA st.groups key with
  | some g =>
    let g2 ← b.entries.foldlM
      (fun (acc : Group) p =>
        match groupPush acc p.1 p.2 with
        | some acc2 => pure acc2
        | none => throw (EvalErr.typeError "push of undefined"))
      g
    pure { st with groups := setA st.groups key g2 }
  | none => throw (EvalErr.typeError "group lookup failed")

/-- `sparqlGroupBy` (sparql-groupby.ts) as a function on the materialized
input sequence: accumulate all input bindings (phase 1), then emit one
binding per group — the representative binding cloned and extended with
the group payload under the `__aggregate` metadata key (phase 2). -/
def sparqlGroupBy (groupVars : List String) (input : List Bindings) :
    Except EvalErr (List Bindings) := do
  let st ← input.foldlM (groupByStep groupVars) ⟨[], []⟩
  st.groups.mapM (fun kg =>
    match lookupA st.keys kg.1 with
    | some kb => pure ((kb.clone).setProperty "__aggregate" kg.2)
    | none => throw (EvalErr.typeError "keys lookup failed"))

/-- The caller-supplied custom-function registry: name to function over
evaluated values (custom-functions.ts boundary). -/
abbrev CustomFunctions := List (String × (List Value → Except EvalErr Value))

/-- An algebra expression tree (the sparqljs `Algebra.Expression` shapes
the compiler dispatches on).  Lexical string arguments of the source are
parsed into terms before recursive compilation (`parseTerm`); they appear
here as already-parsed `termE` / `varE` leaves.  The aggregate node
carries the raw `expression` lexical string and optional separator of the
sparqljs algebra node. -/
inductive Expr where
  | termE (t : Term)
  | varE (name : String)
  | arrE (ts : List Term)
  | operation (op : String) (args : List Expr)
  | aggregate (aggregation : String) (expression : String) (separator : Option String)
  | functionCall (fname : String) (args : List Expr)

/-- Evaluate a list of compiled arguments against the bindings
(`args.map(arg => arg(bindings))`); the first thrown error propagates. -/
def evalArgs : List CompiledExpression → Bindings → Except EvalErr (List Value)
  | [], _ => .ok []
  | c :: rest, b => do
    let v ← c b
    let vs ← evalArgs rest b
    .ok (v :: vs)

mutual

/-- `SPARQLExpression._compileExpression` (sparql-expression.ts): a
variable leaf compiles to a bindings lookup that yields `null` when
unbound (`bindArgument`); a term or array leaf to a constant closure; an
operation node compiles its arguments eagerly, validates the operator
name against the operation table and closes over the table entry, with
no error boundary around evaluation; an aggregate node validates the
aggregation name and closes over a payload-guarded call that passes the
raw `expression` string as the first argument and falls back to returning
the bindings object when no payload is attached; a functionCall node
resolves the custom function at compile time but compiles its arguments
only inside the evaluation-time `try` block, whose `catch` converts any
thrown error — argument compilation, argument evaluation or the custom
function itself — into a `null` result. -/
def compileExpression (cf : CustomFunctions) : Expr → Except String CompiledExpression
  | .termE t => .ok (fun _ => .ok (.term t))
  | .varE n =>
    .ok (fun b =>
      match b.get n with
      | some r => .ok (.term r.term)
      | none => .ok .null)
  | .arrE ts => .ok (fun _ => .ok (.termList ts))
  | .operation op args => do
    let cargs ← compileArgs cf args
    if SPARQL_OPERATIONS_KEYS.contains op then
      .ok (fun b => do
        let vals ← evalArgs cargs b
        applyOperation op vals)
    else
      .error ("Unsupported SPARQL operation: " ++ op)
  | .aggregate agg e sep =>
    if SPARQL_AGGREGATES_KEYS.contains agg then
      .ok (fun b =>
        match b.getProperty "__aggregate" with
        | some g => applyAggregation agg (.jsString e) g sep
        | none => .ok (.bindingsVal b))
    else
      .error ("Unsupported SPARQL aggregation: " ++ agg)
  | .functionCall f args =>
    match lookupA cf f with
    | some fn =>
      .ok (fun b =>
        match
          (do
            let cargs ← (compileArgs cf args).mapError EvalErr.evalError
            let vals ← evalArgs cargs b
            fn vals : Except EvalErr Value)
        with
        | .ok v => .ok v
        | .error _ => .ok .null)
    | none => .error ("Custom function could not be found: " ++ f)

/-- Compile each argument of a node in order, propagating the first
compile-time throw. -/
def compileArgs (cf : CustomFunctions) : List Expr → Except String (List CompiledExpression)
  | [] => .ok []
  | e :: rest => do
    let c ← compileExpression cf e
    let cs ← compileArgs cf rest
    .ok (c :: cs)

end

/-- The interning registry backing `Variable.allocate` (rdf-terms.ts):
name-to-object table plus the next allocation id (object identity is
modelled by id, as for `TermRef`). -/
structure VarRegistry where
  entries : List (String × Nat)
  next : Nat

/-- The registry at process start: empty. -/
def emptyRegistry : VarRegistry := ⟨[], 0⟩

/-- Strip a leading question mark from a variable name, as `allocate`
does before the table lookup. -/
def stripQuestionMark (s : String) : String :=
  if s.startsWith "?" then s.drop 1 else s

/-- `Variable.allocate`: intern a variable name — create the object only
when the name is not yet registered, and return the registered object. -/
def allocateVar (value : String) (st : VarRegistry) : Nat × VarRegistry :=
  let name := stripQuestionMark value
  match lookupA st.entries name with
  | some id => (id, st)
  | none => (st.next, { entries := st.entries ++ [(name, st.next)], next := st.next + 1 })

/-- Run a sequence of `Variable.allocate` calls for their registry
effect. -/
def runAllocations (names : List String) (st : VarRegistry) : VarRegistry :=
  names.foldl (fun s n => (allocateVar n s).2) st

end SparqlEngine

namespace SparqlEngine

/-- A heap cell holding an integer-typed numeric literal, for the concrete
GROUP BY scenario. -/
def mkIntRef (id : Nat) (s : String) : TermRef :=
  ⟨id, Term.mkNumeric s (some (xsd "integer"))⟩

/-- Input binding 1 of the GROUP BY scenario: g maps to 1, v to 10. -/
def c1b1 : Bindings := ⟨[("g", mkIntRef 0 "1"), ("v", mkIntRef 1 "10")], []⟩

/-- Input binding 2 of the GROUP BY scenario: g maps to 1, v to 20. -/
def c1b2 : Bindings := ⟨[("g", mkIntRef 2 "1"), ("v", mkIntRef 3 "20")], []⟩

/-- Input binding 3 of the GROUP BY scenario: g maps to 2, v to 5. -/
def c1b3 : Bindings := ⟨[("g", mkIntRef 4 "2"), ("v", mkIntRef 5 "5")], []⟩

/-- The first grouped binding the stage emits: the representative binding
for key g=1, carrying the group payload with the lists for g and v. -/
def c1out1 : Bindings :=
  ⟨[("g", mkIntRef 0 "1")],
   [("__aggregate",
     [("g", [mkIntRef 0 "1", mkIntRef 2 "1"]),
      ("v", [mkIntRef 1 "10", mkIntRef 3 "20"])])]⟩

/-- The second grouped binding the stage emits: the representative binding
for key g=2. -/
def c1out2 : Bindings :=
  ⟨[("g", mkIntRef 4 "2")],
   [("__aggregate",
     [("g", [mkIntRef 4 "2"]),
      ("v", [mkIntRef 5 "5"])])]⟩

/-- The closure the compiler produces for the aggregate node
`count(?v)`. -/
def c1countClosure : CompiledExpression := fun b =>
  match b.getProperty "__aggregate" with
  | some g => applyAggregation "count" (.jsString "?v") g none
  | none => .ok (.bindingsVal b)

/-- The closure the compiler produces for the aggregate node `sum(?v)`. -/
def c1sumClosure : CompiledExpression := fun b =>
  match b.getProperty "__aggregate" with
  | some g => applyAggregation "sum" (.jsString "?v") g none
  | none => .ok (.bindingsVal b)

/-- C1: grouping the three bindings by g emits exactly the two grouped
bindings, whose payloads map v to the lists [10, 20] and [5] as the claim
states; but the compiled count aggregate evaluates to the numeric literal
2 on BOTH grouped bindings (the table function receives the expression
string `?v` as its rows parameter, whose length is 2), where the claim
expects 2 and 1, and the compiled sum aggregate throws a host TypeError
(a string has no filter method) on both, where the claim expects 30 and
5. -/
theorem groupby_count_sum_evaluation :
  sparqlGroupBy ["g"] [c1b1, c1b2, c1b3] = .ok [c1out1, c1out2]
  ∧ (c1out1.getProperty "__aggregate").bind (fun g => lookupA g "v")
      = some [mkIntRef 1 "10", mkIntRef 3 "20"]
  ∧ (c1out2.getProperty "__aggregate").bind (fun g => lookupA g "v")
      = some [mkIntRef 5 "5"]
  ∧ compileExpression [] (.aggregate "count" "?v" none) = .ok c1countClosure
  ∧ c1countClosure c1out1 = .ok (.term (Term.fromInteger 2))
  ∧ c1countClosure c1out2 = .ok (.term (Term.fromInteger 2))
  ∧ compileExpression [] (.aggregate "sum" "?v" none) = .ok c1sumClosure
  ∧ c1sumClosure c1out1 = .error (.typeError "rows.filter is not a function")
  ∧ c1sumClosure c1out2 = .error (.typeError "rows.filter is not a function") :=
  ⟨rfl, rfl, rfl, rfl, rfl, rfl, rfl, rfl, rfl⟩

unseal Rat.mul Rat.add Rat.sub Rat.inv in
/-- C3: the `/` entry of the operation table applied to the numeric
literals 6 and 3 returns the numeric literal 18 — the entry dispatches to
`multiply`, not to the literal division the claim (and `NumericLiteral.div`)
prescribes, which would give 2. -/
theorem division_entry_multiplies :
  applyOperation "/"
      [.term (Term.mkNumeric "6" (some (xsd "integer"))),
       .term (Term.mkNumeric "3" (some (xsd "integer")))]
    = .ok (.term (.numericLit "0" (some (xsd "integer")) 18)) := by decide

unseal Rat.mul Rat.add Rat.sub Rat.inv in
/-- C4: `langmatches("en-US", "en")` evaluates to the Boolean literal
false — the prefix test reads `tag.substr(1, range.length + 1)`, dropping
the first character, so the RFC 4647 prefix match the claim states (which
would give true) fails; `langmatches("fr", "en")` is false and
`langmatches("en", "*")` is true, as the claim states. -/
theorem langmatches_evaluation :
  applyOperation "langmatches"
      [.term (.stringLit "en-US" none none), .term (.stringLit "en" none none)]
    = .ok (.term (.booleanLit "false" false))
  ∧ applyOperation "langmatches"
      [.term (.stringLit "fr" none none), .term (.stringLit "en" none none)]
    = .ok (.term (.booleanLit "false" false))
  ∧ applyOperation "langmatches"
      [.term (.stringLit "en" none none), .term (.stringLit "*" none none)]
    = .ok (.term (.booleanLit "true" true)) :=
  ⟨by decide, by decide, by decide⟩

/-- C7 counterexample: multiplying the Boolean literal true by the Boolean
literal true raises `LiteralOperationError` — `BooleanLiteral.multiply`
accepts only a Numeric operand, contradicting the claim that a Boolean
operand yields the product-equals-one test. -/
theorem boolean_multiply_boolean_raises :
  litMultiply (Term.mkBoolean "true") (Term.mkBoolean "true")
    = .error (.literalOperationError
        "Cannot multiply a boolean literal with someting that is not a number.") := rfl

/-- C7 amended: Boolean add with a Boolean operand is logical AND and
minus is logical OR; add and minus with a Numeric operand test whether
the 0-or-1 value of the receiver plus or minus the operand equals 1;
multiply and div return the equals-one test of the product or quotient
only against a Numeric operand, while a Boolean operand — like every
operand that is neither Boolean nor Numeric — raises
`LiteralOperationError` (for multiply and div on all four operations). -/
theorem boolean_arithmetic_table :
  (∀ (s w : String) (a b : Bool),
    litAdd (.booleanLit s a) (.booleanLit w b) = .ok (.booleanLit "0" (a && b)))
  ∧ (∀ (s v : String) (a : Bool) (dt : Option String) (n : ℚ),
    litAdd (.booleanLit s a) (.numericLit v dt n)
      = .ok (.booleanLit "0" (boolToNum a + n == 1)))
  ∧ (∀ (s w : String) (a b : Bool),
    litMinus (.booleanLit s a) (.booleanLit w b) = .ok (.booleanLit "0" (a || b)))
  ∧ (∀ (s v : String) (a : Bool) (dt : Option String) (n : ℚ),
    litMinus (.booleanLit s a) (.numericLit v dt n)
      = .ok (.booleanLit "0" (boolToNum a - n == 1)))
  ∧ (∀ (s v : String) (a : Bool) (dt : Option String) (n : ℚ),
    litMultiply (.booleanLit s a) (.numericLit v dt n)
      = .ok (.booleanLit "0" (boolToNum a * n == 1)))
  ∧ (∀ (s v : String) (a : Bool) (dt : Option String) (n : ℚ),
    litDiv (.booleanLit s a) (.numericLit v dt n)
      = .ok (.booleanLit "0" (boolToNum a / n == 1)))
  ∧ (∀ (s w : String) (a b : Bool), ∃ m,
    litMultiply (.booleanLit s a) (.booleanLit w b) = .error (.literalOperationError m))
  ∧ (∀ (s w : String) (a b : Bool), ∃ m,
    litDiv (.booleanLit s a) (.booleanLit w b) = .error (.literalOperationError m))
  ∧ (∀ (s : String) (a : Bool) (t : Term),
    t.isBooleanLit = false → t.isNumericLit = false →
    (∃ m, litAdd (.booleanLit s a) t = .error (.literalOperationError m))
    ∧ (∃ m, litMinus (.booleanLit s a) t = .error (.literalOperationError m))
    ∧ (∃ m, litMultiply (.booleanLit s a) t = .error (.literalOperationError m))
    ∧ (∃ m, litDiv (.booleanLit s a) t = .error (.literalOperationError m))) := by
  refine ⟨fun _ _ _ _ => rfl, fun _ _ _ _ _ => rfl, fun _ _ _ _ => rfl,
    fun _ _ _ _ _ => rfl, fun _ _ _ _ _ => rfl, fun _ _ _ _ _ => rfl,
    fun _ _ _ _ => ⟨_, rfl⟩, fun _ _ _ _ => ⟨_, rfl⟩, fun s a t h1 h2 => ?_⟩
  cases t <;> simp_all [Term.isBooleanLit, Term.isNumericLit] <;>
    exact ⟨⟨_, rfl⟩, ⟨_, rfl⟩, ⟨_, rfl⟩, ⟨_, rfl⟩⟩

unseal Rat.mul Rat.add Rat.sub Rat.inv in
/-- C7 witness: the amended table evaluated at concrete literals — true
AND false is false, true plus 1 is not 1 hence false for the add test,
and a String operand raises on all four operations. -/
theorem boolean_arithmetic_table_witness :
  litAdd (.booleanLit "true" true) (.booleanLit "false" false) = .ok (.booleanLit "0" false)
  ∧ litAdd (.booleanLit "true" true) (.numericLit "1" none 1) = .ok (.booleanLit "0" false)
  ∧ (∃ m, litMinus (.booleanLit "true" true) (.stringLit "x" none none)
      = .error (.literalOperationError m)) := by
  refine ⟨?_, ?_, (boolean_arithmetic_table.2.2.2.2.2.2.2.2 "true" true
    (.stringLit "x" none none) rfl rfl).2.1⟩
  · exact boolean_arithmetic_table.1 "true" "false" true false
  · rw [boolean_arithmetic_table.2.1 "true" "1" true none 1]
    decide

unseal Rat.mul Rat.add Rat.sub Rat.inv in
/-- C8: the substr entry with a String subject and Numeric index raises
the 1-based-indexing error for every index below 1, with no clamping, and
substr of hello from 1 with length 3 is hel. -/
theorem substr_one_based :
  (∀ (v : String) (dt lg : Option String) (iv : String) (idt : Option String)
     (idx : ℚ) (rest : List Value),
    idx < 1 →
    applyOperation "substr"
        (.term (.stringLit v dt lg) :: .term (.numericLit iv idt idx) :: rest)
      = .error (.evalError substrErrMsg))
  ∧ applyOperation "substr"
      [.term (.stringLit "hello" none none), .term (.numericLit "1" none 1),
       .term (.numericLit "3" none 3)]
    = .ok (.term (.stringLit "hel" none none)) := by
  refine ⟨fun v dt lg iv idt idx rest h => ?_, by decide⟩
  simp only [applyOperation]
  rw [if_pos h]

/-- C8 witness: index 0 (below 1) raises the error. -/
theorem substr_one_based_witness :
  (0 : ℚ) < 1
  ∧ applyOperation "substr"
      [.term (.stringLit "hello" none none), .term (.numericLit "0" none 0)]
    = .error (.evalError substrErrMsg) :=
  ⟨by norm_num, substr_one_based.1 "hello" none none "0" none 0 [] (by norm_num)⟩

end SparqlEngine

namespace SparqlEngine

/-- Bind on an ok `Except` result reduces to the continuation. -/
theorem except_bind_ok {e a b : Type} (x : a) (f : a → Except e b) :
    (Except.ok x >>= f : Except e b) = f x := rfl

/-- C2: the compile-time/evaluation-time error asymmetry.  For every
compiled operation node, an error produced while evaluating the arguments
or applying the table operation propagates unchanged out of the compiled
closure — and hence out of `evaluate` when the node is the root.  For
every compiled functionCall node, the closure never propagates an error:
it always returns a value, and whenever the guarded computation —
argument compilation, argument evaluation, or the custom function itself —
throws, the closure returns null. -/
theorem operation_functioncall_error_asymmetry :
  (∀ (cf : CustomFunctions) (op : String) (args : List Expr)
     (c : CompiledExpression) (cargs : List CompiledExpression)
     (b : Bindings) (e : EvalErr),
    compileExpression cf (.operation op args) = .ok c →
    compileArgs cf args = .ok cargs →
    (do let vals ← evalArgs cargs b
        applyOperation op vals : Except EvalErr Value) = .error e →
    c b = .error e)
  ∧ (∀ (cf : CustomFunctions) (f : String) (args : List Expr)
     (c : CompiledExpression) (b : Bindings),
    compileExpression cf (.functionCall f args) = .ok c →
    (∃ v, c b = .ok v)
    ∧ ∀ (fn : List Value → Except EvalErr Value),
        lookupA cf f = some fn →
        (do let cargs ← (compileArgs cf args).mapError EvalErr.evalError
            let vals ← evalArgs cargs b
            fn vals : Except EvalErr Value).isOk = false →
        c b = .ok .null) := by
  constructor
  · intro cf op args c cargs b e hc hca he
    rw [compileExpression] at hc
    rw [hca] at hc
    rw [except_bind_ok] at hc
    by_cases hop : SPARQL_OPERATIONS_KEYS.contains op
    · rw [if_pos hop] at hc
      cases hc
      exact he
    · rw [if_neg hop] at hc
      cases hc
  · intro cf f args c b hc
    rw [compileExpression] at hc
    cases hl : lookupA cf f with
    | none => rw [hl] at hc; cases hc
    | some fn0 =>
      rw [hl] at hc
      cases hc
      constructor
      · cases hinner : (do
          let cargs ← (compileArgs cf args).mapError EvalErr.evalError
          let vals ← evalArgs cargs b
          fn0 vals : Except EvalErr Value) with
        | ok v => exact ⟨v, by simp only [hinner]⟩
        | error e => exact ⟨.null, by simp only [hinner]⟩
      · intro fn hfn hbad
        injection hfn with hfe
        subst hfe
        cases hinner : (do
          let cargs ← (compileArgs cf args).mapError EvalErr.evalError
          let vals ← evalArgs cargs b
          fn0 vals : Except EvalErr Value) with
        | ok v => rw [hinner] at hbad; simp [Except.isOk, Except.toBool] at hbad
        | error e => simp only [hinner]

end SparqlEngine

namespace SparqlEngine

/-- Bind on an error `Except` result short-circuits. -/
theorem except_bind_err {e a b : Type} (x : e) (f : a → Except e b) :
    (Except.error x >>= f : Except e b) = .error x := rfl

/-- First String-literal operand of the concrete subtraction. -/
def c2arg1 : Term := .stringLit "a" none none

/-- Second String-literal operand of the concrete subtraction. -/
def c2arg2 : Term := .stringLit "b" none none

/-- The compiled argument closures of the concrete subtraction node. -/
def c2cargs : List CompiledExpression :=
  [fun _ => .ok (.term c2arg1), fun _ => .ok (.term c2arg2)]

/-- The closure the compiler produces for the operation node subtracting
the two String literals. -/
def c2closure : CompiledExpression := fun b => do
  let vals ← evalArgs c2cargs b
  applyOperation "-" vals

/-- A custom function that always throws. -/
def c2boomFn : List Value → Except EvalErr Value := fun _ => .error (.evalError "boom")

/-- A registry holding the throwing custom function. -/
def c2cf : CustomFunctions := [("boom", c2boomFn)]

/-- The closure the compiler produces for the functionCall node invoking
the throwing custom function. -/
def c2fcClosure : CompiledExpression := fun b =>
  match (do
    let cargs ← (compileArgs c2cf []).mapError EvalErr.evalError
    let vals ← evalArgs cargs b
    c2boomFn vals : Except EvalErr Value) with
  | .ok v => .ok v
  | .error _ => .ok .null

/-- C2 witness: compiling minus over two String literals yields the
operation closure, whose evaluation propagates the
`LiteralOperationError`; compiling a call of the always-throwing custom
function yields the guarded closure, whose evaluation returns null. -/
theorem operation_functioncall_error_asymmetry_witness :
  compileExpression [] (.operation "-" [.termE c2arg1, .termE c2arg2]) = .ok c2closure
  ∧ c2closure Bindings.empty
      = .error (.literalOperationError "Cannot perform a substration between two strings.")
  ∧ compileExpression c2cf (.functionCall "boom" []) = .ok c2fcClosure
  ∧ c2fcClosure Bindings.empty = .ok .null :=
  ⟨rfl,
   operation_functioncall_error_asymmetry.1 [] "-" [.termE c2arg1, .termE c2arg2]
     c2closure c2cargs Bindings.empty _ rfl rfl (by decide),
   rfl,
   (operation_functioncall_error_asymmetry.2 c2cf "boom" [] c2fcClosure
     Bindings.empty rfl).2 c2boomFn rfl (by decide)⟩

/-- The custom function of the lazy-compilation counterexample. -/
def c6fn : List Value → Except EvalErr Value := fun _ => .ok (.term (Term.mkBoolean "true"))

/-- A registry holding the counterexample custom function under the name
f. -/
def c6cf : CustomFunctions := [("f", c6fn)]

/-- C6 counterexample: an expression tree whose functionCall argument
contains an operation node with the unknown operator name `nope`
nevertheless compiles successfully — the constructor does not throw,
because functionCall arguments are only compiled inside the
evaluation-time try block. -/
theorem unknown_operator_under_functioncall_compiles :
  (compileExpression c6cf (.functionCall "f" [.operation "nope" []])).isOk = true := rfl

/-- C6 amended: an unknown operator on an operation node, an unknown
aggregation name on an aggregate node, and an unknown custom-function
name on a functionCall node each fail at compile time, before any
bindings are evaluated — except that the arguments of a functionCall node
are compiled lazily at each evaluation, so compilation of the enclosing
tree succeeds whenever the function name itself resolves, and unknown
names inside those arguments surface only at evaluation time (where the
closure converts them to null). -/
theorem compile_time_name_validation :
  (∀ (cf : CustomFunctions) (op : String) (args : List Expr),
    SPARQL_OPERATIONS_KEYS.contains op = false →
    (compileExpression cf (.operation op args)).isOk = false)
  ∧ (∀ (cf : CustomFunctions) (agg e : String) (sep : Option String),
    SPARQL_AGGREGATES_KEYS.contains agg = false →
    (compileExpression cf (.aggregate agg e sep)).isOk = false)
  ∧ (∀ (cf : CustomFunctions) (f : String) (args : List Expr),
    lookupA cf f = none →
    (compileExpression cf (.functionCall f args)).isOk = false)
  ∧ (∀ (cf : CustomFunctions) (f : String) (args : List Expr)
      (fn : List Value → Except EvalErr Value),
    lookupA cf f = some fn →
    (compileExpression cf (.functionCall f args)).isOk = true) := by
  refine ⟨?_, ?_, ?_, ?_⟩
  · intro cf op args h
    rw [compileExpression]
    cases hca : compileArgs cf args with
    | ok cargs => rw [except_bind_ok, h]; rfl
    | error e => rw [except_bind_err]; rfl
  · intro cf agg e sep h
    rw [compileExpression, h]
    rfl
  · intro cf f args h
    rw [compileExpression, h]
    rfl
  · intro cf f args fn h
    rw [compileExpression, h]
    rfl

/-- C6 witness: the three unknown-name shapes fail to compile at concrete
inputs, and a functionCall with a resolvable name compiles. -/
theorem compile_time_name_validation_witness :
  (compileExpression [] (.operation "nope" [])).isOk = false
  ∧ (compileExpression [] (.aggregate "nope" "?x" none)).isOk = false
  ∧ (compileExpression [] (.functionCall "f" [])).isOk = false
  ∧ (compileExpression c6cf (.functionCall "f" [])).isOk = true :=
  ⟨compile_time_name_validation.1 [] "nope" [] (by decide),
   compile_time_name_validation.2.1 [] "nope" "?x" none (by decide),
   compile_time_name_validation.2.2.1 [] "f" [] rfl,
   compile_time_name_validation.2.2.2 c6cf "f" [] c6fn rfl⟩

end SparqlEngine

namespace SparqlEngine

/-- A key found in the front part of an association list is still found,
with the same value, after appending entries. -/
theorem lookupA_append_left {a : Type} (l1 l2 : List (String × a)) (k : String)
    (v : a) (h : lookupA l1 k = some v) : lookupA (l1 ++ l2) k = some v := by
  induction l1 with
  | nil => simp [lookupA] at h
  | cons p rest ih =>
    rw [lookupA] at h
    rw [List.cons_append, lookupA]
    by_cases hk : p.1 == k
    · rw [if_pos hk] at h ⊢; exact h
    · rw [if_neg hk] at h ⊢; exact ih h

/-- A key absent from the front part of an association list is found in a
singleton appended for it. -/
theorem lookupA_append_self {a : Type} (l : List (String × a)) (k : String)
    (v : a) (h : lookupA l k = none) : lookupA (l ++ [(k, v)]) k = some v := by
  induction l with
  | nil => simp [lookupA]
  | cons p rest ih =>
    rw [lookupA] at h
    rw [List.cons_append, lookupA]
    by_cases hk : p.1 == k
    · rw [if_pos hk] at h; cases h
    · rw [if_neg hk] at h ⊢; exact ih h

/-- One `allocate` call never replaces or removes an existing registry
entry. -/
theorem allocateVar_preserves (st : VarRegistry) (m n : String) (id : Nat)
    (h : lookupA st.entries n = some id) :
    lookupA ((allocateVar m st).2).entries n = some id := by
  rw [allocateVar]
  cases hl : lookupA st.entries (stripQuestionMark m) with
  | some j => exact h
  | none => exact lookupA_append_left _ _ _ _ h

/-- A whole sequence of `allocate` calls never replaces or removes an
existing registry entry. -/
theorem runAllocations_preserves (names : List String) (st : VarRegistry)
    (n : String) (id : Nat) (h : lookupA st.entries n = some id) :
    lookupA (runAllocations names st).entries n = some id := by
  induction names generalizing st with
  | nil => exact h
  | cons m rest ih =>
    rw [runAllocations, List.foldl_cons]
    exact ih _ (allocateVar_preserves st m n id h)

/-- After an `allocate` call, the registry maps the stripped name to the
very object the call returned. -/
theorem allocateVar_self (n : String) (st : VarRegistry) :
    lookupA ((allocateVar n st).2).entries (stripQuestionMark n)
      = some (allocateVar n st).1 := by
  unfold allocateVar
  cases hl : lookupA st.entries (stripQuestionMark n) with
  | some j => simp only [hl]
  | none => simp only [hl]; exact lookupA_append_self _ _ _ hl

/-- When the registry already maps the stripped name, `allocate` returns
that object. -/
theorem allocateVar_get_of_mem (n : String) (st : VarRegistry) (id : Nat)
    (h : lookupA st.entries (stripQuestionMark n) = some id) :
    (allocateVar n st).1 = id := by
  rw [allocateVar, h]

/-- C9: two `Variable.allocate` calls for the same name — whatever other
allocations happen before, between, or after — return the identical
object; and the registry only grows: an existing name-to-object entry
survives any later allocation unchanged (never replaced, never evicted). -/
theorem variable_allocate_interning :
  (∀ (pre mid : List String) (n : String),
    (allocateVar n (runAllocations pre emptyRegistry)).1
      = (allocateVar n
          (runAllocations mid ((allocateVar n (runAllocations pre emptyRegistry)).2))).1)
  ∧ (∀ (st : VarRegistry) (m n : String) (id : Nat),
    lookupA st.entries n = some id →
    lookupA ((allocateVar m st).2).entries n = some id) := by
  constructor
  · intro pre mid n
    have h1 := allocateVar_self n (runAllocations pre emptyRegistry)
    have h2 := runAllocations_preserves mid _ _ _ h1
    exact (allocateVar_get_of_mem n _ _ h2).symm
  · exact fun st m n id h => allocateVar_preserves st m n id h

/-- C9 witness: with x registered as object 0, a later allocation of y
leaves the entry for x intact, and the interleaved double allocation of x
returns the same object at a concrete call sequence. -/
theorem variable_allocate_interning_witness :
  (allocateVar "x" (runAllocations [] emptyRegistry)).1
    = (allocateVar "x"
        (runAllocations ["y", "z"]
          ((allocateVar "x" (runAllocations [] emptyRegistry)).2))).1
  ∧ (lookupA (VarRegistry.mk [("x", 0)] 1).entries "x" = some 0
     ∧ lookupA ((allocateVar "y" (VarRegistry.mk [("x", 0)] 1)).2).entries "x" = some 0) :=
  ⟨variable_allocate_interning.1 [] ["y", "z"] "x",
   rfl,
   variable_allocate_interning.2 (VarRegistry.mk [("x", 0)] 1) "y" "x" 0 rfl⟩

end SparqlEngine

namespace SparqlEngine

/-- Setting one key leaves lookups of a different key unchanged. -/
theorem lookupA_setA_ne {a : Type} (l : List (String × a)) (k v : String)
    (x : a) (h : k ≠ v) : lookupA (setA l k x) v = lookupA l v := by
  induction l with
  | nil =>
    simp only [setA, lookupA]
    rw [if_neg (by simpa using h)]
  | cons p rest ih =>
    rw [setA]
    by_cases hk : p.1 == k
    · rw [if_pos hk, lookupA, lookupA]
      have h1 : p.1 = k := by simpa using hk
      have hpv : (p.1 == v) = false := by simp [h1, h]
      rw [hpv]
      simp
    · rw [if_neg hk, lookupA, lookupA]
      by_cases hv : p.1 == v
      · rw [if_pos hv, if_pos hv]
      · rw [if_neg hv, if_neg hv]; exact ih

/-- `Bindings.set` on one variable leaves `get` of a different variable
unchanged. -/
theorem bindings_get_set_ne (b : Bindings) (k v : String) (r : TermRef)
    (h : k ≠ v) : (b.set k r).get v = b.get v :=
  lookupA_setA_ne b.content k v r h

/-- Under unique keys, every entry of the list is the entry its key looks
up to. -/
theorem lookupA_of_mem_nodup {a : Type} (l : List (String × a)) (k : String)
    (x : a) (hnd : (l.map Prod.fst).Nodup) (hm : (k, x) ∈ l) :
    lookupA l k = some x := by
  induction l with
  | nil => cases hm
  | cons p rest ih =>
    rw [List.map_cons, List.nodup_cons] at hnd
    rw [lookupA]
    cases hm with
    | head => rw [if_pos (by simp)]
    | tail _ hm2 =>
      by_cases hk : p.1 == k
      · exfalso
        apply hnd.1
        rw [show p.1 = k from by simpa using hk]
        exact List.mem_map_of_mem Prod.fst hm2
      · rw [if_neg hk]
        exact ih hnd.2 hm2

/-- The accumulating loop of `Bindings.intersection` never makes a
variable appear when no processed entry both carries its name and passes
the reference-identity test. -/
theorem intersection_foldl_get_none (other : Bindings)
    (l : List (String × TermRef)) (acc : Bindings) (v : String)
    (hacc : acc.get v = none)
    (hskip : ∀ p ∈ l, p.1 = v →
      ∃ r2, other.get p.1 = some r2 ∧ jsSame r2 p.2 = false) :
    (l.foldl
      (fun res p =>
        match other.get p.1 with
        | some r2 => if jsSame r2 p.2 then res.set p.1 p.2 else res
        | none => res)
      acc).get v = none := by
  induction l generalizing acc with
  | nil => exact hacc
  | cons p rest ih =>
    rw [List.foldl_cons]
    apply ih
    · by_cases hp : p.1 = v
      · obtain ⟨r2, hr2, hfalse⟩ := hskip p (by simp) hp
        simp only [hr2, hfalse, Bool.false_eq_true, if_false]
        exact hacc
      · cases hg : other.get p.1 with
        | none => exact hacc
        | some r2 =>
          by_cases hs : jsSame r2 p.2
          · simp only [hs, if_true]
            rw [bindings_get_set_ne _ _ _ _ hp]
            exact hacc
          · simp only [hs, if_false]
            exact hacc
    · exact fun q hq => hskip q (by simp [hq])

/-- The accumulating loop of `Bindings.map` never makes a variable appear
when no processed entry maps to it. -/
theorem mapB_foldl_get_none
    (mapper : String → TermRef → Option String × Option TermRef)
    (l : List (String × TermRef)) (acc : Bindings) (v : String)
    (hacc : acc.get v = none)
    (hskip : ∀ p ∈ l, ∀ w r, mapper p.1 p.2 = (some w, some r) → w ≠ v) :
    (l.foldl
      (fun res p =>
        match mapper p.1 p.2 with
        | (some w, some r) => res.set w r
        | _ => res)
      acc).get v = none := by
  induction l generalizing acc with
  | nil => exact hacc
  | cons p rest ih =>
    rw [List.foldl_cons]
    apply ih
    · cases hm : mapper p.1 p.2 with
      | mk ow or =>
        cases ow with
        | none => cases or <;> exact hacc
        | some w =>
          cases or with
          | none => exact hacc
          | some r =>
            rw [bindings_get_set_ne _ _ _ _ (hskip p (by simp) w r hm)]
            exact hacc
    · exact fun q hq => hskip q (by simp [hq])

/-- `Bindings.map` never makes a variable appear when no entry maps to
it. -/
theorem mapB_get_none (b : Bindings)
    (mapper : String → TermRef → Option String × Option TermRef) (v : String)
    (hskip : ∀ p ∈ b.content, ∀ w r, mapper p.1 p.2 = (some w, some r) → w ≠ v) :
    (b.mapB mapper).get v = none :=
  mapB_foldl_get_none mapper b.content Bindings.empty v rfl hskip

/-- The first of the two bindings mapping x to equal-but-distinct numeric
objects. -/
def c10b1 : Bindings := ⟨[("x", mkIntRef 6 "5")], []⟩

/-- The second of the two bindings mapping x to equal-but-distinct numeric
objects. -/
def c10b2 : Bindings := ⟨[("x", mkIntRef 7 "5")], []⟩

unseal Rat.mul Rat.add Rat.sub Rat.inv in
/-- C10: whenever two bindings map the same variable to term objects that
are `Term.equals`-equal but not reference-identical, the variable appears
neither in their intersection (which demands host identity) nor in their
difference (which drops variables bound to `Term.equals`-equal values);
yet the two bindings can be `equals`-equal, as the concrete pair shows. -/
theorem bindings_identity_vs_equality :
  (∀ (b1 b2 : Bindings) (v : String) (r1 r2 : TermRef),
    (b1.content.map Prod.fst).Nodup →
    b1.get v = some r1 → b2.get v = some r2 →
    r1.id ≠ r2.id → Term.termEquals r1.term r2.term = true →
    (b1.intersection b2).get v = none ∧ (b1.difference b2).get v = none)
  ∧ Bindings.equals c10b1 c10b2 = true := by
  constructor
  · intro b1 b2 v r1 r2 hnd h1 h2 hid heq
    constructor
    · apply intersection_foldl_get_none b2 b1.content Bindings.empty v rfl
      intro p hp hpv
      have hpr : p.2 = r1 := by
        have hlk := lookupA_of_mem_nodup b1.content p.1 p.2 hnd (by
          cases p; exact hp)
        rw [hpv] at hlk
        have h1L : lookupA b1.content v = some r1 := h1
        exact (Option.some.inj (h1L.symm.trans hlk)).symm
      refine ⟨r2, by rw [hpv]; exact h2, ?_⟩
      rw [hpr]
      simp only [jsSame, beq_eq_false_iff_ne]
      exact fun hcontra => hid hcontra.symm
    · apply mapB_get_none
      intro p hp w r hm
      by_cases hpv : p.1 = v
      · exfalso
        have hpr : p.2 = r1 := by
          have hlk := lookupA_of_mem_nodup b1.content p.1 p.2 hnd (by
            cases p; exact hp)
          rw [hpv] at hlk
          have h1L : lookupA b1.content v = some r1 := h1
          exact (Option.some.inj (h1L.symm.trans hlk)).symm
        simp [hpv, hpr, h2, heq] at hm
      · intro hwv
        apply hpv
        cases hg : b2.get p.1 with
        | none =>
          simp [hg] at hm
          exact hm.1.trans hwv
        | some r2 =>
          by_cases ht : Term.termEquals p.2.term r2.term = true
          · simp [hg, ht] at hm
          · have ht2 : Term.termEquals p.2.term r2.term = false := by
              cases hb : Term.termEquals p.2.term r2.term
              · rfl
              · exact absurd hb ht
            simp [hg, ht2] at hm
            exact hm.1.trans hwv
  · decide

unseal Rat.mul Rat.add Rat.sub Rat.inv in
/-- C10 witness: the universally quantified part applied to the concrete
pair — x is bound in both to the numeric literal 5 through distinct
objects, appears in neither the intersection nor the difference, and the
two bindings are nevertheless `equals`-equal. -/
theorem bindings_identity_vs_equality_witness :
  ((c10b1.content.map Prod.fst).Nodup
   ∧ c10b1.get "x" = some (mkIntRef 6 "5") ∧ c10b2.get "x" = some (mkIntRef 7 "5")
   ∧ (mkIntRef 6 "5").id ≠ (mkIntRef 7 "5").id
   ∧ Term.termEquals (mkIntRef 6 "5").term (mkIntRef 7 "5").term = true)
  ∧ ((c10b1.intersection c10b2).get "x" = none
     ∧ (c10b1.difference c10b2).get "x" = none) :=
  ⟨⟨by decide, rfl, rfl, by decide, by decide⟩,
   bindings_identity_vs_equality.1 c10b1 c10b2 "x" (mkIntRef 6 "5") (mkIntRef 7 "5")
     (by decide) rfl rfl (by decide) (by decide)⟩

end SparqlEngine

namespace SparqlEngine

/-- Modelled from the spec: the N3 literal decomposition `parseTerm`
performs through the n3-library helpers (getLiteralValue,
getLiteralLanguage, getLiteralType — external to the sources).  Per the
round-trip property of section 8, the decomposition recovers exactly the
components the `toRDF` serialization emitted: the lexical value, and the
language tag when present, else the serialized datatype (for a
`BooleanLiteral` the constructor-forced `xsd:boolean`). -/
def serializedParts : Term → String × Option String × Option String
  | .iri v => (v, none, none)
  | .varT n => (n, none, none)
  | .numericLit v dt _ => (v, dt, none)
  | .stringLit v dt lang => (v, if lang.isSome then none else dt, lang)
  | .booleanLit v _ => (v, some (xsd "boolean"), none)
  | .dateLit v dt _ => (v, dt, none)
  | .bufferLit v _ dt _ => (v, dt, none)

/-- Re-parse a literal from the components of its RDF-text serialization:
the round trip `parseLiteral(term.toRDF())` of the claim. -/
def roundTripLiteral (t : Term) : Term :=
  parseLiteral (serializedParts t).1 (serializedParts t).2.1 (serializedParts t).2.2

/-- A Date literal with a valid lexical form. -/
def c5date : Term := parseLiteral "2020-01-01T00:00:00Z" (some (xsd "dateTime")) none

/-- C5: re-parsing the serialization components reproduces an
`equals`-equal literal for the Numeric, String, Boolean and Buffer kinds
(every parseLiteral-producible non-Date literal), but fails for every
Date literal: the round trip re-parses to a `DateLiteral`, and
`DateLiteral.equals` accepts only a `StringLiteral` operand, so the
comparison is false at the concrete valid date. -/
theorem literal_roundtrip :
  (∀ (v : String) (dt lang : Option String),
    (parseLiteral v dt lang).isDateLit = false →
    Term.termEquals (parseLiteral v dt lang) (roundTripLiteral (parseLiteral v dt lang)) = true)
  ∧ Term.termEquals c5date (roundTripLiteral c5date) = false := by
  constructor
  · intro v dt lang h
    cases dt with
    | none =>
      simp [parseLiteral, roundTripLiteral, serializedParts, Term.termEquals]
    | some d =>
      by_cases h1 : d ∈ numericDatatypes
      · simp [parseLiteral, roundTripLiteral, serializedParts, Term.mkNumeric,
          Term.termEquals, h1]
      · by_cases h2 : (d == xsd "boolean") = true
        · have hd : d = xsd "boolean" := by simpa using h2
          subst hd
          simp [parseLiteral, roundTripLiteral, serializedParts, Term.mkBoolean,
            Term.termEquals, numericDatatypes, xsd]
        · by_cases h3 : d ∈ dateDatatypes
          · exfalso
            rw [parseLiteral, if_neg h1, if_neg h2, if_pos h3] at h
            simp [Term.mkDate, Term.isDateLit] at h
          · by_cases h4 : (d == xsd "hexBinary") = true
            · have hd : d = xsd "hexBinary" := by simpa using h4
              subst hd
              simp [parseLiteral, roundTripLiteral, serializedParts, Term.mkBuffer,
                Term.termEquals, numericDatatypes, dateDatatypes, xsd]
            · by_cases h5 : (d == xsd "base64Binary") = true
              · have hd : d = xsd "base64Binary" := by simpa using h5
                subst hd
                simp [parseLiteral, roundTripLiteral, serializedParts, Term.mkBuffer,
                  Term.termEquals, numericDatatypes, dateDatatypes, xsd]
              · cases lang with
                | none =>
                  simp [parseLiteral, roundTripLiteral, serializedParts,
                    Term.termEquals, h1, h2, h3, h4, h5]
                | some l =>
                  simp [parseLiteral, roundTripLiteral, serializedParts,
                    Term.termEquals, h1, h2, h3, h4, h5]
  · rfl

/-- C5 witness: the round trip of the integer literal 5 — not a Date —
reproduces an equals-equal literal. -/
theorem literal_roundtrip_witness :
  (parseLiteral "5" (some (xsd "integer")) none).isDateLit = false
  ∧ Term.termEquals (parseLiteral "5" (some (xsd "integer")) none)
      (roundTripLiteral (parseLiteral "5" (some (xsd "integer")) none)) = true :=
  ⟨rfl, literal_roundtrip.1 "5" (some (xsd "integer")) none rfl⟩

end SparqlEngine
